import Mathlib

/-!
Shallow embedding of the Product CRUD service
(`service/routes.py`, with the Product entity/mapper/repository modelled
from the specification, since `service/models.py` is not part of the
provided sources — only its tests and callers are).

Conventions:
* JSON values are modelled by the inductive `JsonVal`; a JSON number that
  carries a price is a fixed-point decimal `Price` (integral units plus
  two digits of cents), matching the spec's "decimal/numeric value ...
  stored with fixed-point precision".
* The relational store is a `List Product`; rows of persisted products
  carry `id = some i`.
* Fallible operations return `Except DataValidationError _` or pair an
  `Option DataValidationError` with the post-state of the store.
-/

/-! ### Characters and decimal digit strings -/

/-- The character for a single decimal digit `d` (`d < 10`). -/
def digitChar (d : Nat) : Char := Char.ofNat (48 + d)

/-- Parse one character as a decimal digit. -/
def charToDigit (c : Char) : Option Nat :=
  if 48 ≤ c.toNat ∧ c.toNat ≤ 57 then some (c.toNat - 48) else none

theorem charToDigit_digitChar (d : Nat) (hd : d < 10) :
    charToDigit (digitChar d) = some d := by
  interval_cases d <;> decide

theorem digitChar_toNat (d : Nat) (hd : d < 10) :
    (digitChar d).toNat = 48 + d := by
  interval_cases d <;> decide

/-- Little-endian decimal digits of `n`, with explicit fuel so that the
function is structurally recursive (the fuel `n` itself always
suffices). -/
def natDigitsGo (fuel n : Nat) : List Nat :=
  match fuel with
  | 0 => []
  | fuel + 1 => if n = 0 then [] else n % 10 :: natDigitsGo fuel (n / 10)

/-- Little-endian decimal digits of `n` (empty for `0`). -/
def natDigitsLE (n : Nat) : List Nat := natDigitsGo n n

/-- Value of a little-endian digit list. -/
def valLE : List Nat → Nat
  | [] => 0
  | d :: ds => d + 10 * valLE ds

theorem valLE_natDigitsGo (fuel : Nat) :
    ∀ n : Nat, n ≤ fuel → valLE (natDigitsGo fuel n) = n := by
  induction fuel with
  | zero => intro n hn; interval_cases n; rfl
  | succ fuel ih =>
    intro n hn
    rw [natDigitsGo]
    by_cases h : n = 0
    · simp [h, valLE]
    · rw [if_neg h, valLE, ih (n / 10) (by omega)]
      omega

theorem valLE_natDigitsLE (n : Nat) : valLE (natDigitsLE n) = n :=
  valLE_natDigitsGo n n (Nat.le_refl n)

theorem natDigitsGo_lt_ten (fuel : Nat) :
    ∀ n d : Nat, d ∈ natDigitsGo fuel n → d < 10 := by
  induction fuel with
  | zero => intro n d hd; simp [natDigitsGo] at hd
  | succ fuel ih =>
    intro n d hd
    rw [natDigitsGo] at hd
    by_cases h : n = 0
    · simp [h] at hd
    · rw [if_neg h] at hd
      rcases List.mem_cons.mp hd with h1 | h2
      · omega
      · exact ih (n / 10) d h2

theorem natDigitsGo_ne_nil (fuel n : Nat) (hn : n ≠ 0) (hf : fuel ≠ 0) :
    natDigitsGo fuel n ≠ [] := by
  match fuel with
  | 0 => exact absurd rfl hf
  | f + 1 => rw [natDigitsGo, if_neg hn]; exact List.cons_ne_nil _ _

/-- Big-endian decimal character rendering of a natural number, with no
leading zeros (`0` renders as `"0"`). -/
def renderNat (n : Nat) : List Char :=
  if n = 0 then [digitChar 0] else ((natDigitsLE n).reverse).map digitChar

/-- Parse a list of characters as all-decimal-digits; fails on the empty
list and on any non-digit character. Leading zeros are tolerated. -/
def parseDigits : List Char → Option (List Nat)
  | [] => some []
  | c :: cs =>
    match charToDigit c, parseDigits cs with
    | some d, some ds => some (d :: ds)
    | _, _ => none

/-- Parse a nonempty big-endian digit string as a natural number. -/
def parseNat (cs : List Char) : Option Nat :=
  match parseDigits cs with
  | some [] => none
  | some ds => some (valLE ds.reverse)
  | none => none

theorem parseDigits_map_digitChar (ds : List Nat) (h : ∀ d ∈ ds, d < 10) :
    parseDigits (ds.map digitChar) = some ds := by
  induction ds with
  | nil => rfl
  | cons d ds ih =>
    rw [List.map_cons, parseDigits,
      charToDigit_digitChar d (h d (List.mem_cons_self d ds)),
      ih (fun x hx => h x (List.mem_cons_of_mem d hx))]

theorem parseNat_renderNat (n : Nat) : parseNat (renderNat n) = some n := by
  by_cases h : n = 0
  · subst h; rfl
  · rw [renderNat, if_neg h, parseNat,
      parseDigits_map_digitChar ((natDigitsLE n).reverse)
        (fun d hd => natDigitsGo_lt_ten n n d (List.mem_reverse.mp hd))]
    have hne : (natDigitsLE n).reverse ≠ [] := by
      intro hc
      exact natDigitsGo_ne_nil n n h h (List.reverse_eq_nil_iff.mp hc)
    match hrev : (natDigitsLE n).reverse with
    | [] => exact absurd hrev hne
    | d :: ds =>
      have hval : valLE ((d :: ds).reverse) = n := by
        rw [← hrev, List.reverse_reverse, valLE_natDigitsLE]
      exact congrArg some hval

/-! ### Fixed-point decimal prices -/

/-- Modelled from the spec: `price` is a "decimal/numeric value ...
stored with fixed-point precision"; we model it as a non-negative
fixed-point decimal with integral `units` and two digits of `cents`
(the precision used by the spec's own example `12.50`). -/
structure Price where
  units : Nat
  cents : Fin 100
deriving DecidableEq, Repr

/-- Decimal character rendering of a price, e.g. `12.50`. -/
def renderPrice (p : Price) : List Char :=
  renderNat p.units ++ '.' :: [digitChar (p.cents.val / 10), digitChar (p.cents.val % 10)]

/-- Split a character list at its first dot, dropping the dot. -/
def splitAtDot : List Char → Option (List Char × List Char)
  | [] => none
  | c :: cs =>
    if c = '.' then some ([], cs)
    else (splitAtDot cs).map (fun ab => (c :: ab.1, ab.2))

/-- Parse a decimal price string: either a bare natural number (taken as
whole units) or digits, a dot and exactly two digits of cents. -/
def parsePrice (cs : List Char) : Option Price :=
  match splitAtDot cs with
  | none =>
    match parseNat cs with
    | some u => some ⟨u, 0⟩
    | none => none
  | some (a, b) =>
    match parseNat a, b with
    | some u, [c1, c2] =>
      match charToDigit c1, charToDigit c2 with
      | some d1, some d2 =>
        if h : d1 * 10 + d2 < 100 then some ⟨u, ⟨d1 * 10 + d2, h⟩⟩ else none
      | _, _ => none
    | _, _ => none

theorem splitAtDot_append (xs ys : List Char) (hx : ∀ c ∈ xs, c ≠ '.') :
    splitAtDot (xs ++ '.' :: ys) = some (xs, ys) := by
  induction xs with
  | nil => simp [splitAtDot]
  | cons c cs ih =>
    rw [List.cons_append, splitAtDot,
      if_neg (hx c (List.mem_cons_self c cs)),
      ih (fun x hx2 => hx x (List.mem_cons_of_mem c hx2))]
    rfl

theorem renderNat_all_digits (n : Nat) :
    ∀ c ∈ renderNat n, ∃ d, d < 10 ∧ c = digitChar d := by
  intro c hc
  rw [renderNat] at hc
  by_cases h : n = 0
  · rw [if_pos h] at hc
    rcases List.mem_singleton.mp hc with rfl
    exact ⟨0, by omega, rfl⟩
  · rw [if_neg h] at hc
    rcases List.mem_map.mp hc with ⟨d, hd, rfl⟩
    exact ⟨d, natDigitsGo_lt_ten n n d (List.mem_reverse.mp hd), rfl⟩

theorem renderNat_no_dot (n : Nat) : ∀ c ∈ renderNat n, c ≠ '.' := by
  intro c hc
  rcases renderNat_all_digits n c hc with ⟨d, hd, rfl⟩
  intro hcontra
  have h1 := digitChar_toNat d hd
  rw [hcontra] at h1
  have h2 : ('.').toNat = 46 := rfl
  omega

theorem parsePrice_renderPrice (p : Price) :
    parsePrice (renderPrice p) = some p := by
  have h1 : p.cents.val / 10 < 10 := by omega
  have h2 : p.cents.val % 10 < 10 := by omega
  simp only [renderPrice, parsePrice,
    splitAtDot_append (renderNat p.units)
      [digitChar (p.cents.val / 10), digitChar (p.cents.val % 10)]
      (renderNat_no_dot p.units),
    parseNat_renderNat, charToDigit_digitChar _ h1, charToDigit_digitChar _ h2]
  rw [dif_pos (show p.cents.val / 10 * 10 + p.cents.val % 10 < 100 by omega)]
  refine congrArg some (congrArg (Price.mk p.units) (Fin.ext ?_))
  show p.cents.val / 10 * 10 + p.cents.val % 10 = p.cents.val
  omega

/-! ### Category enumeration and ASCII case mapping -/

/-- Modelled from the spec: the fixed `Category` enumeration
`{UNKNOWN, CLOTHS, FOOD, HOUSEWARES, AUTOMOTIVE, TOOLS}` (the members the
spec names; `UNKNOWN` is the default/fallback). `service/models.py`,
which declares it, is not among the provided sources. -/
inductive Category where
  | UNKNOWN
  | CLOTHS
  | FOOD
  | HOUSEWARES
  | AUTOMOTIVE
  | TOOLS
deriving DecidableEq, Repr

/-- The enumeration member name of a category, as written in the code. -/
def categoryName : Category → String
  | .UNKNOWN => "UNKNOWN"
  | .CLOTHS => "CLOTHS"
  | .FOOD => "FOOD"
  | .HOUSEWARES => "HOUSEWARES"
  | .AUTOMOTIVE => "AUTOMOTIVE"
  | .TOOLS => "TOOLS"

/-- The lowercase rendering of a category member name, as emitted by
`serialize`. -/
def categoryLowerName : Category → String
  | .UNKNOWN => "unknown"
  | .CLOTHS => "cloths"
  | .FOOD => "food"
  | .HOUSEWARES => "housewares"
  | .AUTOMOTIVE => "automotive"
  | .TOOLS => "tools"

/-- Uppercase one ASCII character (Python `str.upper` on ASCII input). -/
def upperChar (c : Char) : Char :=
  if 97 ≤ c.toNat ∧ c.toNat ≤ 122 then Char.ofNat (c.toNat - 32) else c

/-- Lowercase one ASCII character (Python `str.lower` on ASCII input). -/
def lowerChar (c : Char) : Char :=
  if 65 ≤ c.toNat ∧ c.toNat ≤ 90 then Char.ofNat (c.toNat + 32) else c

/-- Uppercase an ASCII string, as Python `str.upper` does. -/
def asciiUpper (s : String) : String := String.mk (s.data.map upperChar)

/-- Lowercase an ASCII string, as Python `str.lower` does. -/
def asciiLower (s : String) : String := String.mk (s.data.map lowerChar)

/-- Modelled from the spec: the enumeration-by-name lookup for
`category` (string to enum member, case-insensitive via uppercasing, as
`routes.py` does with `getattr(Category, str(cat).upper())`); it is the
"explicit total function returning an optional match" the spec asks
for. -/
def categoryFromString (s : String) : Option Category :=
  match asciiUpper s with
  | "UNKNOWN" => some .UNKNOWN
  | "CLOTHS" => some .CLOTHS
  | "FOOD" => some .FOOD
  | "HOUSEWARES" => some .HOUSEWARES
  | "AUTOMOTIVE" => some .AUTOMOTIVE
  | "TOOLS" => some .TOOLS
  | _ => none

theorem categoryFromString_lowerName (c : Category) :
    categoryFromString (categoryLowerName c) = some c := by
  cases c <;> rfl

theorem categoryLowerName_eq_lower (c : Category) :
    categoryLowerName c = asciiLower (categoryName c) := by
  cases c <;> rfl

/-! ### JSON values, the Product record, serialize and deserialize -/

/-- A JSON value, as exchanged on the wire. A JSON number is either a
fixed-point decimal (`jnum`, used for prices) or an integer (`jint`,
used for ids). -/
inductive JsonVal where
  | null
  | jbool (b : Bool)
  | jstr (s : String)
  | jnum (p : Price)
  | jint (n : Nat)
  | jarr (items : List JsonVal)
  | jobj (kvs : List (String × JsonVal))

/-- Modelled from the spec: the sole domain error kind,
`DataValidationError`, carrying a human-readable message. -/
structure DataValidationError where
  msg : String
deriving DecidableEq, Repr

/-- Modelled from the spec: the `Product` record shape — `id` (absent
before first persistence), `name`, `description`, `price`, `available`,
`category`. -/
structure Product where
  id : Option Nat
  name : String
  description : String
  price : Price
  available : Bool
  category : Category
deriving DecidableEq, Repr

/-- JSON form of the `id` field: the integer, or JSON null before
persistence. -/
def idJson : Option Nat → JsonVal
  | some i => .jint i
  | none => .null

/-- Modelled from the spec: `serialize() -> JSON object` "always
succeeds for a well-formed in-memory record; emits id, name,
description, price (as string), available (bool), category (as
lowercase name string)". Totality of this function is the "always
succeeds" guarantee. -/
def Product.serialize (p : Product) : JsonVal :=
  .jobj [("id", idJson p.id),
         ("name", .jstr p.name),
         ("description", .jstr p.description),
         ("price", .jstr (String.mk (renderPrice p.price))),
         ("available", .jbool p.available),
         ("category", .jstr (categoryLowerName p.category))]

/-- Modelled from the spec: extraction of the required `name` field;
a missing key is a `DataValidationError` (KeyError-equivalent). -/
def getName (kvs : List (String × JsonVal)) : Except DataValidationError String :=
  match kvs.lookup "name" with
  | some (.jstr s) => .ok s
  | some _ => .error ⟨"Invalid product: name must be a string"⟩
  | none => .error ⟨"Invalid product: missing name"⟩

/-- Modelled from the spec: extraction of the required `description`
field ("may be empty string but field must be present"). -/
def getDescription (kvs : List (String × JsonVal)) : Except DataValidationError String :=
  match kvs.lookup "description" with
  | some (.jstr s) => .ok s
  | some _ => .error ⟨"Invalid product: description must be a string"⟩
  | none => .error ⟨"Invalid product: missing description"⟩

/-- Lift a parsed optional price into the validation error monad. -/
def priceOfParse : Option Price → Except DataValidationError Price
  | some v => .ok v
  | none => .error ⟨"Invalid product: malformed price"⟩

/-- Modelled from the spec: extraction of the required `price` field; a
decimal number, an integer, or its decimal string rendering. -/
def getPrice (kvs : List (String × JsonVal)) : Except DataValidationError Price :=
  match kvs.lookup "price" with
  | some (.jnum v) => .ok v
  | some (.jint n) => .ok ⟨n, 0⟩
  | some (.jstr s) => priceOfParse (parsePrice s.data)
  | some _ => .error ⟨"Invalid product: malformed price"⟩
  | none => .error ⟨"Invalid product: missing price"⟩

/-- Modelled from the spec: extraction of the required `available`
field; it "fails with `DataValidationError` if `available` is present
but not a boolean type". -/
def getAvailable (kvs : List (String × JsonVal)) : Except DataValidationError Bool :=
  match kvs.lookup "available" with
  | some (.jbool b) => .ok b
  | some _ => .error ⟨"Invalid type for boolean [available]"⟩
  | none => .error ⟨"Invalid product: missing available"⟩

/-- Modelled from the spec: extraction of the required `category`
field; it "fails with `DataValidationError` if `category` does not
match any enumeration member name (unknown value) — including
non-string category values". -/
def getCategory (kvs : List (String × JsonVal)) : Except DataValidationError Category :=
  match kvs.lookup "category" with
  | some (.jstr s) =>
    match categoryFromString s with
    | some c => .ok c
    | none => .error ⟨"Invalid attribute: category"⟩
  | some _ => .error ⟨"Invalid attribute: category"⟩
  | none => .error ⟨"Invalid product: missing category"⟩

/-- Modelled from the spec: `deserialize(JSON object) -> Product | error`.
Fails with `DataValidationError` when the input is not a JSON object,
when a required key is missing, when `available` is not boolean, or
when `category` matches no enumeration member; on success populates
name, description, price, available and category, while `id` is not
taken from the payload. Field validation follows the spec's order
(name, description, price, available, category); the first failure
wins, and on failure no record is produced at all. -/
def Product.deserialize (p : Product) (data : JsonVal) : Except DataValidationError Product :=
  match data with
  | .jobj kvs =>
    match getName kvs, getDescription kvs, getPrice kvs, getAvailable kvs, getCategory kvs with
    | .ok nm, .ok ds, .ok pr, .ok av, .ok ct =>
      .ok { p with name := nm, description := ds, price := pr,
                   available := av, category := ct }
    | .error e, _, _, _, _ => .error e
    | .ok _, .error e, _, _, _ => .error e
    | .ok _, .ok _, .error e, _, _ => .error e
    | .ok _, .ok _, .ok _, .error e, _ => .error e
    | .ok _, .ok _, .ok _, .ok _, .error e => .error e
  | _ => .error ⟨"Invalid product: body of request contained bad or no data"⟩

theorem deserialize_of_ok (q : Product) (kvs : List (String × JsonVal))
    (nm ds : String) (pr : Price) (av : Bool) (ct : Category)
    (h1 : getName kvs = .ok nm) (h2 : getDescription kvs = .ok ds)
    (h3 : getPrice kvs = .ok pr) (h4 : getAvailable kvs = .ok av)
    (h5 : getCategory kvs = .ok ct) :
    Product.deserialize q (.jobj kvs) =
      .ok { q with
            name := nm, description := ds, price := pr,
            available := av, category := ct } := by
  rw [Product.deserialize.eq_def]
  simp only [h1, h2, h3, h4, h5]

theorem deserialize_error_of_error (q : Product) (kvs : List (String × JsonVal))
    (h : (∃ e, getName kvs = .error e) ∨ (∃ e, getDescription kvs = .error e) ∨
      (∃ e, getPrice kvs = .error e) ∨ (∃ e, getAvailable kvs = .error e) ∨
      (∃ e, getCategory kvs = .error e)) :
    ∃ e, Product.deserialize q (.jobj kvs) = .error e := by
  rw [Product.deserialize.eq_def]
  rcases h1 : getName kvs with e1 | nm <;>
  rcases h2 : getDescription kvs with e2 | ds <;>
  rcases h3 : getPrice kvs with e3 | pr <;>
  rcases h4 : getAvailable kvs with e4 | av <;>
  rcases h5 : getCategory kvs with e5 | ct <;>
  simp only [h1, h2, h3, h4, h5] <;>
  first
    | exact ⟨_, rfl⟩
    | (rcases h with ⟨e, he⟩ | ⟨e, he⟩ | ⟨e, he⟩ | ⟨e, he⟩ | ⟨e, he⟩ <;>
        simp [h1, h2, h3, h4, h5] at he)

/-- C1: every `deserialize` input that is null, or is a JSON object
lacking the `name` key, or whose `available` value is not boolean, or
whose `category` value (string or not) matches no enumeration member,
yields a `DataValidationError`; since the result is `Except.error`, no
partially-populated record is constructed. -/
theorem claim_C1_deserialize_validation (p : Product) (kvs : List (String × JsonVal)) :
    (∃ e, Product.deserialize p .null = .error e) ∧
    (kvs.lookup "name" = none → ∃ e, Product.deserialize p (.jobj kvs) = .error e) ∧
    (∀ v, kvs.lookup "available" = some v → (∀ b, v ≠ .jbool b) →
      ∃ e, Product.deserialize p (.jobj kvs) = .error e) ∧
    (∀ v, kvs.lookup "category" = some v →
      (∀ s, v = .jstr s → categoryFromString s = none) →
      ∃ e, Product.deserialize p (.jobj kvs) = .error e) := by
  refine ⟨⟨_, rfl⟩, ?_, ?_, ?_⟩
  · intro hnone
    apply deserialize_error_of_error
    left
    unfold getName
    rw [hnone]
    exact ⟨_, rfl⟩
  · intro v hv hnb
    apply deserialize_error_of_error
    refine Or.inr (Or.inr (Or.inr (Or.inl ?_)))
    unfold getAvailable
    rw [hv]
    cases v with
    | jbool b => exact absurd rfl (hnb b)
    | null => exact ⟨_, rfl⟩
    | jstr s => exact ⟨_, rfl⟩
    | jnum r => exact ⟨_, rfl⟩
    | jint n => exact ⟨_, rfl⟩
    | jarr l => exact ⟨_, rfl⟩
    | jobj o => exact ⟨_, rfl⟩
  · intro v hv hns
    apply deserialize_error_of_error
    refine Or.inr (Or.inr (Or.inr (Or.inr ?_)))
    unfold getCategory
    rw [hv]
    cases v with
    | jstr s =>
      show ∃ e, (match categoryFromString s with
        | some c => Except.ok c
        | none => Except.error ⟨"Invalid attribute: category"⟩) = Except.error e
      rw [hns s rfl]
      exact ⟨_, rfl⟩
    | null => exact ⟨_, rfl⟩
    | jbool b => exact ⟨_, rfl⟩
    | jnum r => exact ⟨_, rfl⟩
    | jint n => exact ⟨_, rfl⟩
    | jarr l => exact ⟨_, rfl⟩
    | jobj o => exact ⟨_, rfl⟩

/-- The spec's example product (`Fedora`, `12.50`, `CLOTHS`), used as a
concrete instance by witness theorems. -/
def sampleProduct : Product :=
  ⟨none, "Fedora", "A red hat", ⟨12, ⟨50, by decide⟩⟩, true, .CLOTHS⟩

/-- Witness for C1 at concrete inputs: null, `{}`,
`{"available": "not_valid"}` and `{"category": "phone"}` are all
rejected. -/
theorem claim_C1_witness :
    (∃ e, Product.deserialize sampleProduct .null = .error e) ∧
    (∃ e, Product.deserialize sampleProduct (.jobj []) = .error e) ∧
    (∃ e, Product.deserialize sampleProduct
      (.jobj [("available", .jstr "not_valid")]) = .error e) ∧
    (∃ e, Product.deserialize sampleProduct
      (.jobj [("category", .jstr "phone")]) = .error e) :=
  ⟨(claim_C1_deserialize_validation sampleProduct []).1,
   (claim_C1_deserialize_validation sampleProduct []).2.1 rfl,
   (claim_C1_deserialize_validation sampleProduct
      [("available", .jstr "not_valid")]).2.2.1 (.jstr "not_valid") rfl
      (fun b h => JsonVal.noConfusion h),
   (claim_C1_deserialize_validation sampleProduct
      [("category", .jstr "phone")]).2.2.2 (.jstr "phone") rfl
      (fun s h => by cases h; rfl)⟩

/-- C2: for every Product record, deserializing the serialized form
succeeds and reproduces name, description, price, available and
category; the receiver's `id` is untouched (it is not reassigned from
the payload). -/
theorem claim_C2_serialize_deserialize_roundtrip (p q : Product) :
    Product.deserialize q (Product.serialize p) =
      .ok { q with
            name := p.name, description := p.description, price := p.price,
            available := p.available, category := p.category } := by
  obtain ⟨pid, pnm, pds, ppr, pav, pct⟩ := p
  refine deserialize_of_ok q _ _ _ _ _ _ rfl rfl ?_ rfl ?_
  · show priceOfParse (parsePrice (renderPrice ppr)) = .ok ppr
    rw [parsePrice_renderPrice]
    rfl
  · cases pct <;> rfl

/-! ### The Product repository over a list-of-rows store -/

/-- Modelled from the spec: `find(id) -> Product | absent`, a point
lookup by primary key that "returns nothing if not found (never raises
for not found)". -/
def Product.find (store : List Product) (i : Nat) : Option Product :=
  store.find? (fun q => decide (q.id = some i))

/-- Modelled from the spec: `all()` returns every row, unfiltered. -/
def Product.all (store : List Product) : List Product := store

/-- Modelled from the spec: `update()` requires `id` already set and
"fails with `DataValidationError` if `id` is unset (update called with
empty ID field)"; otherwise it "persists all current field values to
the existing row matching `id`". The result pairs the error, if any,
with the post-state of the store (unchanged on error). -/
def Product.update (p : Product) (store : List Product) :
    Option DataValidationError × List Product :=
  match p.id with
  | none => (some ⟨"update called with empty ID field"⟩, store)
  | some _ => (none, store.map (fun q => if q.id = p.id then p else q))

/-- Modelled from the spec: `delete()` "removes the row matching `id`". -/
def Product.delete (p : Product) (store : List Product) : List Product :=
  store.filter (fun q => decide (¬ q.id = p.id))

/-- Modelled from the spec: `find_by_name` is an exact, case-sensitive
match. -/
def Product.find_by_name (store : List Product) (n : String) : List Product :=
  store.filter (fun q => decide (q.name = n))

/-- Modelled from the spec: `find_by_category` is an exact match on the
enumeration value. -/
def Product.find_by_category (store : List Product) (c : Category) : List Product :=
  store.filter (fun q => decide (q.category = c))

/-- Modelled from the spec: `find_by_availability` is an exact match on
the boolean. -/
def Product.find_by_availability (store : List Product) (b : Bool) : List Product :=
  store.filter (fun q => q.available == b)

/-- Replacing the matching row during `update` never changes a row's
id: the replacement row carries the very id that was matched. -/
theorem update_row_id (p q : Product) : (if q.id = p.id then p else q).id = q.id := by
  by_cases h : q.id = p.id
  · rw [if_pos h, h]
  · rw [if_neg h]

/-- C3: `update` on a record with unset `id` fails with the exact
message "update called with empty ID field" and leaves the store
unchanged; with `id = some i` it succeeds, the row found at `i` now
holds the record's current field values, rows at other ids are
untouched, and no row's id changes. -/
theorem claim_C3_update_semantics (p : Product) (store : List Product) :
    (p.id = none →
      Product.update p store = (some ⟨"update called with empty ID field"⟩, store)) ∧
    (∀ i, p.id = some i →
      (Product.update p store).1 = none ∧
      Product.find ((Product.update p store).2) i =
        (Product.find store i).map (fun _ => p) ∧
      (∀ j, j ≠ i → Product.find ((Product.update p store).2) j =
        Product.find store j) ∧
      ((Product.update p store).2).map Product.id = store.map Product.id) := by
  constructor
  · intro h
    unfold Product.update
    rw [h]
  · intro i hi
    have hfst : (Product.update p store).1 = none := by
      unfold Product.update
      rw [hi]
    have hsnd : (Product.update p store).2 =
        store.map (fun q => if q.id = p.id then p else q) := by
      unfold Product.update
      rw [hi]
    have hcomp : ∀ j : Nat,
        ((fun q => decide (q.id = some j)) ∘ (fun q => if q.id = p.id then p else q))
          = (fun q => decide (q.id = some j)) := by
      intro j
      funext q
      simp only [Function.comp]
      rw [update_row_id]
    refine ⟨hfst, ?_, ?_, ?_⟩
    · rw [hsnd]
      unfold Product.find
      rw [List.find?_map, hcomp i]
      rcases hf : store.find? (fun q => decide (q.id = some i)) with _ | r
      · rw [hf, Option.map_none', Option.map_none']
      · have hr := List.find?_some hf
        have hrid : r.id = some i := of_decide_eq_true hr
        rw [hf, Option.map_some', Option.map_some', if_pos (by rw [hrid, hi])]
    · intro j hj
      rw [hsnd]
      unfold Product.find
      rw [List.find?_map, hcomp j]
      rcases hf : store.find? (fun q => decide (q.id = some j)) with _ | r
      · rw [hf, Option.map_none']
      · have hr := List.find?_some hf
        have hrid : r.id = some j := of_decide_eq_true hr
        rw [hf, Option.map_some',
          if_neg (by rw [hrid, hi]; exact fun hc => hj (Option.some.inj hc))]
    · rw [hsnd, List.map_map]
      exact List.map_congr_left (fun q _ => update_row_id p q)

/-- A second sample product, persisted under id 2. -/
def sampleProductB : Product :=
  ⟨some 2, "Hammer", "A claw hammer", ⟨9, ⟨99, by decide⟩⟩, false, .TOOLS⟩

/-- The sample product persisted under id 1. -/
def sampleProductA : Product :=
  { sampleProduct with id := some 1 }

/-- A two-row sample store. -/
def sampleStore : List Product := [sampleProductA, sampleProductB]

/-- Witness for C3: updating a transient record fails with the exact
message and leaves the two-row store unchanged; updating the record
persisted at id 1 succeeds, rewrites the row at id 1, leaves id 2
alone, and preserves all row ids. -/
theorem claim_C3_witness :
    (Product.update sampleProduct sampleStore =
      (some ⟨"update called with empty ID field"⟩, sampleStore)) ∧
    ((Product.update sampleProductA sampleStore).1 = none ∧
      Product.find ((Product.update sampleProductA sampleStore).2) 1 =
        (Product.find sampleStore 1).map (fun _ => sampleProductA) ∧
      (∀ j, j ≠ 1 → Product.find ((Product.update sampleProductA sampleStore).2) j =
        Product.find sampleStore j) ∧
      ((Product.update sampleProductA sampleStore).2).map Product.id =
        sampleStore.map Product.id) :=
  ⟨(claim_C3_update_semantics sampleProduct sampleStore).1 rfl,
   (claim_C3_update_semantics sampleProductA sampleStore).2 1 rfl⟩

/-- Filtering out the rows a predicate selects shrinks the list by
exactly the number of selected rows. -/
theorem length_filter_add_countP {α : Type} (P Q : α → Bool) (l : List α)
    (h : ∀ a, Q a = ! P a) :
    (l.filter Q).length + List.countP P l = l.length := by
  induction l with
  | nil => rfl
  | cons a t ih =>
    by_cases hp : P a = true
    · have hq : Q a = false := by rw [h a, hp]; rfl
      rw [List.filter_cons, List.countP_cons, hq, hp]
      simp only [Bool.false_eq_true, if_false, if_true, List.length_cons]
      omega
    · have hp2 : P a = false := Bool.eq_false_iff.mpr hp
      have hq : Q a = true := by rw [h a, hp2]; rfl
      rw [List.filter_cons, List.countP_cons, hq, hp2]
      simp only [Bool.false_eq_true, if_false, if_true, List.length_cons]
      omega

/-- In a store with unique row ids, exactly one row carries the id of a
member row. -/
theorem countP_id_eq_one (store : List Product) (p : Product)
    (hmem : p ∈ store) (hnodup : (store.map Product.id).Nodup) :
    List.countP (fun q => decide (q.id = p.id)) store = 1 := by
  induction store with
  | nil => cases hmem
  | cons a t ih =>
    rw [List.map_cons, List.nodup_cons] at hnodup
    rcases List.mem_cons.mp hmem with rfl | hpt
    · have ht : List.countP (fun q => decide (q.id = p.id)) t = 0 := by
        apply List.countP_eq_zero.mpr
        intro q hq hc
        apply hnodup.1
        rw [← of_decide_eq_true hc]
        exact List.mem_map_of_mem Product.id hq
      rw [List.countP_cons, ht, if_pos (decide_eq_true rfl)]
    · have ha : decide (a.id = p.id) = false := by
        apply decide_eq_false
        intro hc
        apply hnodup.1
        rw [hc]
        exact List.mem_map_of_mem Product.id hpt
      rw [List.countP_cons, ha, ih hpt hnodup.2]
      rfl

/-- C4: deleting a persisted product with id `i` from a store with
unique row ids makes `find i` come back absent, shrinks `all()` by
exactly one row, and removes no other row. -/
theorem claim_C4_delete (store : List Product) (p : Product) (i : Nat)
    (hmem : p ∈ store) (hid : p.id = some i)
    (hnodup : (store.map Product.id).Nodup) :
    Product.find (Product.delete p store) i = none ∧
    (Product.all (Product.delete p store)).length + 1 = (Product.all store).length ∧
    (∀ q ∈ store, q.id ≠ some i → q ∈ Product.delete p store) := by
  refine ⟨?_, ?_, ?_⟩
  · unfold Product.find Product.delete
    apply List.find?_eq_none.mpr
    intro x hx
    have hne : ¬ x.id = p.id := of_decide_eq_true (List.mem_filter.mp hx).2
    rw [hid] at hne
    intro hc
    exact hne (of_decide_eq_true hc)
  · unfold Product.all Product.delete
    have hcount1 := countP_id_eq_one store p hmem hnodup
    have hlen := length_filter_add_countP (fun q => decide (q.id = p.id))
      (fun q => decide (¬ q.id = p.id)) store
      (fun a => by by_cases h : a.id = p.id <;> simp [h])
    omega
  · intro q hq hqi
    unfold Product.delete
    apply List.mem_filter.mpr
    refine ⟨hq, decide_eq_true ?_⟩
    rw [hid]
    exact hqi

/-- Witness for C4 on the concrete two-row store: deleting the row with
id 1 makes it unfindable, drops the row count from 2 to 1, and keeps
the row with id 2. -/
theorem claim_C4_witness :
    Product.find (Product.delete sampleProductA sampleStore) 1 = none ∧
    (Product.all (Product.delete sampleProductA sampleStore)).length + 1 =
      (Product.all sampleStore).length ∧
    (∀ q ∈ sampleStore, q.id ≠ some 1 → q ∈ Product.delete sampleProductA sampleStore) :=
  claim_C4_delete sampleStore sampleProductA 1 (by decide) rfl (by decide)

/-! ### Price search with string normalization -/

/-- The argument accepted by `find_by_price`: a bare decimal value or a
string (possibly wrapped in quotes). -/
inductive PriceQuery where
  | num (v : Price)
  | str (s : String)

/-- A character stripped by the normalization, Python `.strip(' "')`:
a double quote or a space. -/
def stripQuoteSpace (c : Char) : Bool := c == '"' || c == ' '

/-- Python `.strip(' "')`: drop quote/space characters from both ends. -/
def pyStrip (cs : List Char) : List Char :=
  ((cs.dropWhile stripQuoteSpace).reverse.dropWhile stripQuoteSpace).reverse

/-- Modelled from the spec: `find_by_price` is an exact match that
"must also accept the price pre-wrapped in quotes as a string ... and
normalize it before comparison". A string argument is stripped of
surrounding quotes/spaces and parsed as a decimal; an unparseable
string matches nothing. -/
def Product.find_by_price (store : List Product) (arg : PriceQuery) : List Product :=
  match arg with
  | .num v => store.filter (fun r => decide (r.price = v))
  | .str s =>
    match parsePrice (pyStrip s.data) with
    | some v => store.filter (fun r => decide (r.price = v))
    | none => []

theorem stripQuoteSpace_false_of_toNat (c : Char) (h1 : c.toNat ≠ 34)
    (h2 : c.toNat ≠ 32) : stripQuoteSpace c = false := by
  unfold stripQuoteSpace
  have hq : (c == '"') = false :=
    beq_eq_false_iff_ne.mpr (fun hc => h1 (by rw [hc]; rfl))
  have hs : (c == ' ') = false :=
    beq_eq_false_iff_ne.mpr (fun hc => h2 (by rw [hc]; rfl))
  rw [hq, hs]
  rfl

theorem renderPrice_no_strip (v : Price) :
    ∀ c ∈ renderPrice v, stripQuoteSpace c = false := by
  intro c hc
  unfold renderPrice at hc
  rcases List.mem_append.mp hc with hn | hrest
  · rcases renderNat_all_digits v.units c hn with ⟨d, hd, rfl⟩
    have := digitChar_toNat d hd
    exact stripQuoteSpace_false_of_toNat _ (by omega) (by omega)
  · rcases List.mem_cons.mp hrest with rfl | htail
    · exact stripQuoteSpace_false_of_toNat _ (by decide) (by decide)
    · rcases List.mem_cons.mp htail with rfl | htail2
      · have := digitChar_toNat (v.cents.val / 10) (by omega)
        exact stripQuoteSpace_false_of_toNat _ (by omega) (by omega)
      · rcases List.mem_singleton.mp htail2 with rfl
        have := digitChar_toNat (v.cents.val % 10) (by omega)
        exact stripQuoteSpace_false_of_toNat _ (by omega) (by omega)

theorem renderPrice_ne_nil (v : Price) : renderPrice v ≠ [] := by
  unfold renderPrice
  intro hc
  exact List.cons_ne_nil _ _ (List.append_eq_nil.mp hc).2

/-- Stripping the quotes from a quoted string whose inner characters
are not strippable recovers the inner string. -/
theorem pyStrip_quoted (l : List Char) (hne : l ≠ [])
    (hl : ∀ c ∈ l, stripQuoteSpace c = false) :
    pyStrip ('"' :: l ++ ['"']) = l := by
  rcases List.exists_cons_of_ne_nil hne with ⟨a, t, rfl⟩
  unfold pyStrip
  have h1 : List.dropWhile stripQuoteSpace ('"' :: (a :: t) ++ ['"'])
      = (a :: t) ++ ['"'] := by
    rw [List.cons_append, List.dropWhile_cons, if_pos (by decide),
      List.cons_append, List.dropWhile_cons,
      if_neg (by rw [hl a (List.mem_cons_self a t)]; exact Bool.false_ne_true)]
  rw [h1, List.reverse_append]
  have h2 : List.dropWhile stripQuoteSpace (['"'].reverse ++ (a :: t).reverse)
      = (a :: t).reverse := by
    rw [show (['"'] : List Char).reverse = ['"'] from rfl, List.cons_append,
      List.nil_append, List.dropWhile_cons, if_pos (by decide)]
    rcases hrev : (a :: t).reverse with _ | ⟨b, u⟩
    · exact absurd hrev (by simp)
    · have hb : b ∈ a :: t := by
        rw [← List.mem_reverse, hrev]
        exact List.mem_cons_self b u
      rw [List.dropWhile_cons,
        if_neg (by rw [hl b hb]; exact Bool.false_ne_true)]
  rw [h2, List.reverse_reverse]

/-- C5: searching by a bare decimal price and by the same price wrapped
in a quoted string return identical result sets. -/
theorem claim_C5_find_by_price_quoted (store : List Product) (v : Price) :
    Product.find_by_price store (.num v) =
      Product.find_by_price store
        (.str (String.mk ('"' :: renderPrice v ++ ['"']))) := by
  have hdata : (String.mk ('"' :: renderPrice v ++ ['"'])).data
      = '"' :: renderPrice v ++ ['"'] := rfl
  have hparse : parsePrice (pyStrip ('"' :: renderPrice v ++ ['"'])) = some v := by
    rw [pyStrip_quoted (renderPrice v) (renderPrice_ne_nil v) (renderPrice_no_strip v),
      parsePrice_renderPrice]
  simp only [Product.find_by_price, hdata, hparse]

/-- C6: `serialize` — total, hence it always succeeds — emits a JSON
object carrying `id`, the name, the description, the price rendered as
a string, `available` as a boolean, and the category rendered as the
lowercase form of its enumeration member name. -/
theorem claim_C6_serialize_shape (p : Product) :
    ∃ kvs, Product.serialize p = .jobj kvs ∧
      kvs.lookup "id" = some (idJson p.id) ∧
      kvs.lookup "name" = some (.jstr p.name) ∧
      kvs.lookup "description" = some (.jstr p.description) ∧
      kvs.lookup "price" = some (.jstr (String.mk (renderPrice p.price))) ∧
      kvs.lookup "available" = some (.jbool p.available) ∧
      kvs.lookup "category" = some (.jstr (asciiLower (categoryName p.category))) := by
  refine ⟨_, rfl, rfl, rfl, rfl, rfl, rfl, ?_⟩
  show some (JsonVal.jstr (categoryLowerName p.category))
      = some (JsonVal.jstr (asciiLower (categoryName p.category)))
  rw [categoryLowerName_eq_lower]

/-! ### The HTTP route handlers of service/routes.py -/

/-- The query parameters of GET /products, each absent or a raw
string, as `request.args.get` returns them. -/
structure ListQuery where
  name : Option String
  category : Option String
  available : Option String

/-- An HTTP response: a status code and an optional JSON body (`none`
models the empty body `""`). -/
structure HttpResponse where
  status : Nat
  body : Option JsonVal

/-- The GET /products/{product_id} handler (`get_products`,
routes.py lines 133-143): 404 with empty body when `find` comes back
absent, else 200 with the serialized product. -/
def get_products (store : List Product) (product_id : Nat) : HttpResponse :=
  match Product.find store product_id with
  | none => ⟨404, none⟩
  | some prod => ⟨200, some prod.serialize⟩

/-- The GET /products handler (`list_products`, routes.py lines
100-126). `name` is consulted first, then `category` (uppercased and
looked up in the enumeration, 400 on failure), then `available`
(filtering on membership of the raw string in
`['true', 'True', 'TRUE']`), else all products; the chosen filter's
results are serialized into a JSON array. -/
def list_products (store : List Product) (q : ListQuery) : HttpResponse :=
  match q.name with
  | some n => ⟨200, some (.jarr ((Product.find_by_name store n).map Product.serialize))⟩
  | none =>
    match q.category with
    | some c =>
      match categoryFromString c with
      | none => ⟨400, none⟩
      | some cat =>
        ⟨200, some (.jarr ((Product.find_by_category store cat).map Product.serialize))⟩
    | none =>
      match q.available with
      | some a =>
        ⟨200, some (.jarr ((Product.find_by_availability store
          (a == "true" || a == "True" || a == "TRUE")).map Product.serialize))⟩
      | none => ⟨200, some (.jarr ((Product.all store).map Product.serialize))⟩

/-- In a store with unique row ids, `find` returns exactly the member
row carrying the sought id. -/
theorem find_eq_of_mem (store : List Product) (p : Product) (i : Nat)
    (hnodup : (store.map Product.id).Nodup) (hmem : p ∈ store)
    (hid : p.id = some i) :
    Product.find store i = some p := by
  induction store with
  | nil => cases hmem
  | cons a t ih =>
    rw [List.map_cons, List.nodup_cons] at hnodup
    unfold Product.find
    by_cases ha : a.id = some i
    · have hap : a = p := by
        rcases List.mem_cons.mp hmem with rfl | hpt
        · rfl
        · exfalso
          apply hnodup.1
          rw [ha, ← hid]
          exact List.mem_map_of_mem Product.id hpt
      rw [List.find?_cons_of_pos t (decide_eq_true ha), hap]
    · have hpt : p ∈ t := by
        rcases List.mem_cons.mp hmem with rfl | hpt
        · exact absurd hid ha
        · exact hpt
      rw [List.find?_cons_of_neg t (by rw [decide_eq_false ha]; exact Bool.false_ne_true)]
      exact ih hnodup.2 hpt

/-- C7: GET /products/{id} yields 404 with an empty body when no row
carries the id, and 200 with the serialized product when one does
(absence is an ordinary response, not an exception). -/
theorem claim_C7_get_product (store : List Product) (i : Nat) :
    ((∀ q ∈ store, q.id ≠ some i) → get_products store i = ⟨404, none⟩) ∧
    ((store.map Product.id).Nodup → ∀ p, p ∈ store → p.id = some i →
      get_products store i = ⟨200, some p.serialize⟩) := by
  constructor
  · intro habs
    have hfind : Product.find store i = none := by
      unfold Product.find
      apply List.find?_eq_none.mpr
      intro x hx hc
      exact habs x hx (of_decide_eq_true hc)
    unfold get_products
    rw [hfind]
  · intro hnodup p hmem hid
    have hfind : Product.find store i = some p := find_eq_of_mem store p i hnodup hmem hid
    unfold get_products
    rw [hfind]

/-- Witness for C7: on the two-row store, id 999999 is absent and
yields the 404 empty response, while id 2 yields 200 with row B. -/
theorem claim_C7_witness :
    get_products sampleStore 999999 = ⟨404, none⟩ ∧
    get_products sampleStore 2 = ⟨200, some sampleProductB.serialize⟩ :=
  ⟨(claim_C7_get_product sampleStore 999999).1 (by decide),
   (claim_C7_get_product sampleStore 2).2 (by decide) sampleProductB (by decide) rfl⟩

/-- C8: when the `name` parameter is absent and the `category`
parameter does not resolve (case-insensitively, via uppercasing) to an
enumeration member, GET /products answers 400 with an empty body. -/
theorem claim_C8_unresolvable_category (store : List Product) (q : ListQuery)
    (c : String) (hname : q.name = none) (hcat : q.category = some c)
    (hres : categoryFromString c = none) :
    list_products store q = ⟨400, none⟩ := by
  rw [list_products.eq_def]
  simp only [hname, hcat, hres]

/-- Witness for C8: the category value "phone" resolves to no member
and produces the 400 empty response. -/
theorem claim_C8_witness :
    categoryFromString "phone" = none ∧
    list_products sampleStore ⟨none, some "phone", none⟩ = ⟨400, none⟩ :=
  ⟨rfl, claim_C8_unresolvable_category sampleStore ⟨none, some "phone", none⟩
    "phone" rfl rfl rfl⟩

/-- C9: exactly one filter applies, with precedence name over category
over available; lower-priority parameters are ignored, and with no
parameters every product is returned. -/
theorem claim_C9_filter_precedence (store : List Product) (q : ListQuery) :
    (∀ n, q.name = some n →
      list_products store q =
        ⟨200, some (.jarr ((Product.find_by_name store n).map Product.serialize))⟩) ∧
    (∀ c cat, q.name = none → q.category = some c →
      categoryFromString c = some cat →
      list_products store q =
        ⟨200, some (.jarr ((Product.find_by_category store cat).map Product.serialize))⟩) ∧
    (∀ a, q.name = none → q.category = none → q.available = some a →
      list_products store q =
        ⟨200, some (.jarr ((Product.find_by_availability store
          (a == "true" || a == "True" || a == "TRUE")).map Product.serialize))⟩) ∧
    (q.name = none → q.category = none → q.available = none →
      list_products store q =
        ⟨200, some (.jarr ((Product.all store).map Product.serialize))⟩) := by
  refine ⟨?_, ?_, ?_, ?_⟩
  · intro n hn
    rw [list_products.eq_def]
    simp only [hn]
  · intro c cat hn hc hcat
    rw [list_products.eq_def]
    simp only [hn, hc, hcat]
  · intro a hn hc ha
    rw [list_products.eq_def]
    simp only [hn, hc, ha]
  · intro hn hc ha
    rw [list_products.eq_def]
    simp only [hn, hc, ha]

/-- Witness for C9 at concrete queries: a name query ignores the junk
category and available values; a category query ignores the junk
available value; an available query applies; and the empty query lists
everything. -/
theorem claim_C9_witness :
    list_products sampleStore ⟨some "Fedora", some "junk", some "junk"⟩ =
      ⟨200, some (.jarr ((Product.find_by_name sampleStore "Fedora").map
        Product.serialize))⟩ ∧
    list_products sampleStore ⟨none, some "tools", some "junk"⟩ =
      ⟨200, some (.jarr ((Product.find_by_category sampleStore .TOOLS).map
        Product.serialize))⟩ ∧
    list_products sampleStore ⟨none, none, some "true"⟩ =
      ⟨200, some (.jarr ((Product.find_by_availability sampleStore
        ("true" == "true" || "true" == "True" || "true" == "TRUE")).map
        Product.serialize))⟩ ∧
    list_products sampleStore ⟨none, none, none⟩ =
      ⟨200, some (.jarr ((Product.all sampleStore).map Product.serialize))⟩ :=
  ⟨(claim_C9_filter_precedence sampleStore ⟨some "Fedora", some "junk", some "junk"⟩).1
      "Fedora" rfl,
   (claim_C9_filter_precedence sampleStore ⟨none, some "tools", some "junk"⟩).2.1
      "tools" .TOOLS rfl rfl rfl,
   (claim_C9_filter_precedence sampleStore ⟨none, none, some "true"⟩).2.2.1
      "true" rfl rfl rfl,
   (claim_C9_filter_precedence sampleStore ⟨none, none, none⟩).2.2.2 rfl rfl rfl⟩

/-- C10: with name and category absent, any `available` value yields a
200 response; the filter is true exactly for the strings "true",
"True" and "TRUE", and false for every other value. -/
theorem claim_C10_available_values (store : List Product) (q : ListQuery)
    (a : String) (hname : q.name = none) (hcat : q.category = none)
    (hav : q.available = some a) :
    (list_products store q).status = 200 ∧
    list_products store q =
      ⟨200, some (.jarr ((Product.find_by_availability store
        (a == "true" || a == "True" || a == "TRUE")).map Product.serialize))⟩ := by
  have h : list_products store q =
      ⟨200, some (.jarr ((Product.find_by_availability store
        (a == "true" || a == "True" || a == "TRUE")).map Product.serialize))⟩ := by
    rw [list_products.eq_def]
    simp only [hname, hcat, hav]
  exact ⟨by rw [h], h⟩

/-- Witness for C10: the value "tRuE" is not among the three accepted
spellings, so it silently filters for unavailable products, with
status 200. -/
theorem claim_C10_witness :
    ("tRuE" == "true" || "tRuE" == "True" || "tRuE" == "TRUE") = false ∧
    (list_products sampleStore ⟨none, none, some "tRuE"⟩).status = 200 ∧
    list_products sampleStore ⟨none, none, some "tRuE"⟩ =
      ⟨200, some (.jarr ((Product.find_by_availability sampleStore
        ("tRuE" == "true" || "tRuE" == "True" || "tRuE" == "TRUE")).map
        Product.serialize))⟩ :=
  ⟨by decide,
   (claim_C10_available_values sampleStore ⟨none, none, some "tRuE"⟩ "tRuE"
      rfl rfl rfl).1,
   (claim_C10_available_values sampleStore ⟨none, none, some "tRuE"⟩ "tRuE"
      rfl rfl rfl).2⟩
